import Mathlib

/-!
Shallow embedding of the debellator transport core
(`src/debellator/core.py`): UID serialization, chunk flags, frame-header
codec, the chunker (`split_data`), the receive-side reassembly loop
(`Channel._receive_single_message` / `Channel._receive_reader`), the
acknowledgement bookkeeping, the `Execute` pending-command teardown, and
command registration (`_CommandMeta.__new__`).

Bytes are modelled as `List Nat` with every element `< 256`; machine
integers are `Nat` with explicit bounds where Python's `struct` would
raise on overflow.  External collaborators (the `hashlib.md5` digest, the
`zlib` compressor and the msgpack codec) are parameters of the embedding:
the source treats them as black boxes and so do we.
-/

namespace Debellator

/-! ## Big-endian byte packing (Python `struct`, network byte order) -/

/-- Pack `n` as `w` big-endian bytes (`struct.pack` for `!Q`, `!H`, `!I`, or
the bit pattern of `!d`).  Python raises on out-of-range input; theorems
carry the range hypothesis `n < 2 ^ (8 * w)` instead. -/
def toBytesBE : Nat → Nat → List Nat
  | 0, _ => []
  | w + 1, n => toBytesBE w (n / 256) ++ [n % 256]

/-- Read big-endian bytes back into a number (`struct.unpack`). -/
def fromBytesBE (bs : List Nat) : Nat :=
  bs.foldl (fun acc b => acc * 256 + b) 0

theorem toBytesBE_length (w n : Nat) : (toBytesBE w n).length = w := by
  induction w generalizing n with
  | zero => rfl
  | succ w ih => simp [toBytesBE, ih]

theorem fromBytesBE_append_single (bs : List Nat) (b : Nat) :
    fromBytesBE (bs ++ [b]) = fromBytesBE bs * 256 + b := by
  simp [fromBytesBE, List.foldl_append]

theorem fromBytesBE_toBytesBE (w n : Nat) (h : n < 2 ^ (8 * w)) :
    fromBytesBE (toBytesBE w n) = n := by
  induction w generalizing n with
  | zero =>
    interval_cases n
    rfl
  | succ w ih =>
    have hdiv : n / 256 < 2 ^ (8 * w) := by
      have h256 : (256 : Nat) = 2 ^ 8 := by norm_num
      rw [h256, Nat.div_lt_iff_lt_mul (by positivity), ← pow_add]
      have : 8 * w + 8 = 8 * (w + 1) := by ring
      rwa [this]
    rw [toBytesBE, fromBytesBE_append_single, ih _ hdiv]
    rw [Nat.mul_comm]
    exact Nat.div_add_mod n 256

theorem toBytesBE_lt (w n : Nat) : ∀ b ∈ toBytesBE w n, b < 256 := by
  induction w generalizing n with
  | zero => simp [toBytesBE]
  | succ w ih =>
    intro b hb
    rw [toBytesBE] at hb
    rcases List.mem_append.mp hb with h | h
    · exact ih _ b h
    · simp only [List.mem_singleton] at h
      subst h
      exact Nat.mod_lt _ (by norm_num)

/-! ## IEEE-754 float64 equality (Python `==` on unpacked doubles)

The `time` component of a `Uid` is a Python float.  We model it by its
64-bit big-endian bit pattern; `struct.pack`/`unpack` for `!d` preserve
this pattern exactly.  Python's `==` on two doubles with patterns `p` and
`q` holds iff neither is a NaN and either the patterns coincide or both
denote a (possibly differently signed) zero. -/

/-- The bit pattern encodes an IEEE-754 NaN: exponent all ones, mantissa
nonzero. -/
def isNanPattern (p : Nat) : Bool :=
  decide ((p / 2 ^ 52) % 2 ^ 11 = 0x7ff ∧ p % 2 ^ 52 ≠ 0)

/-- The bit pattern encodes `+0.0` or `-0.0` (all bits below the sign bit
are zero). -/
def isZeroPattern (p : Nat) : Bool :=
  decide (p % 2 ^ 63 = 0)

/-- Python `==` on the doubles with bit patterns `p` and `q`. -/
def pyFloat64Eq (p q : Nat) : Bool :=
  if isNanPattern p || isNanPattern q then false
  else decide (p = q) || (isZeroPattern p && isZeroPattern q)

/-! ## Uid (`core.Uid`, lines 161-213)

`Uid.__init__` stores `(time, id, tid, seq)` and `self.bytes =
struct.pack("!dQQQ", time, id, tid, seq)`; `Uid(bytes=...)` unpacks the
same format.  The `time` field is carried as its float64 bit pattern. -/

structure Uid where
  /-- IEEE-754 bit pattern of the float64 timestamp. -/
  time : Nat
  /-- `id(thread)` of the creating thread, a uint64. -/
  id : Nat
  /-- `thread.ident` of the creating thread, a uint64. -/
  tid : Nat
  /-- per-thread monotonic sequence number, a uint64. -/
  seq : Nat
deriving DecidableEq, Repr

/-- `struct.pack("!dQQQ", time, id, tid, seq)`: the 32-byte serialization
of a Uid. -/
def encodeUid (u : Uid) : List Nat :=
  toBytesBE 8 u.time ++ toBytesBE 8 u.id ++ toBytesBE 8 u.tid ++ toBytesBE 8 u.seq

/-- `Uid(bytes=encoded)`, i.e. `struct.unpack("!dQQQ", encoded)`;
`struct.unpack` raises unless the input is exactly 32 bytes. -/
def decodeUid (bs : List Nat) : Option Uid :=
  if bs.length = 32 then
    some ⟨fromBytesBE (bs.take 8),
          fromBytesBE ((bs.drop 8).take 8),
          fromBytesBE ((bs.drop 16).take 8),
          fromBytesBE ((bs.drop 24).take 8)⟩
  else none

/-- `Uid.__eq__`: componentwise tuple comparison, where the `time`
components are compared with Python float `==`. -/
def pyUidEq (u v : Uid) : Bool :=
  pyFloat64Eq u.time v.time && decide (u.id = v.id)
    && decide (u.tid = v.tid) && decide (u.seq = v.seq)

/-- All four packed components are in `struct` range. -/
def Uid.inRange (u : Uid) : Prop :=
  u.time < 2 ^ 64 ∧ u.id < 2 ^ 64 ∧ u.tid < 2 ^ 64 ∧ u.seq < 2 ^ 64

instance (u : Uid) : Decidable u.inRange := by
  unfold Uid.inRange
  infer_instance

theorem encodeUid_length (u : Uid) : (encodeUid u).length = 32 := by
  simp [encodeUid, toBytesBE_length]

theorem take_append_of_length {α : Type} {l₁ l₂ : List α} {n : Nat}
    (h : l₁.length = n) : (l₁ ++ l₂).take n = l₁ := by
  subst h
  simp

theorem drop_append_of_length {α : Type} {l₁ l₂ : List α} {n : Nat}
    (h : l₁.length = n) : (l₁ ++ l₂).drop n = l₂ := by
  subst h
  simp

theorem decodeUid_encodeUid (u : Uid) (h : u.inRange) :
    decodeUid (encodeUid u) = some u := by
  obtain ⟨h1, h2, h3, h4⟩ := h
  have l1 : (toBytesBE 8 u.time).length = 8 := toBytesBE_length _ _
  have l2 : (toBytesBE 8 u.id).length = 8 := toBytesBE_length _ _
  have l3 : (toBytesBE 8 u.tid).length = 8 := toBytesBE_length _ _
  have l4 : (toBytesBE 8 u.seq).length = 8 := toBytesBE_length _ _
  have e64 : (2 : Nat) ^ 64 = 2 ^ (8 * 8) := by norm_num
  rw [e64] at h1 h2 h3 h4
  rw [decodeUid, if_pos (encodeUid_length u)]
  unfold encodeUid
  rw [List.append_assoc, List.append_assoc]
  have d8 : (toBytesBE 8 u.time ++
      (toBytesBE 8 u.id ++ (toBytesBE 8 u.tid ++ toBytesBE 8 u.seq))).drop 8 =
      toBytesBE 8 u.id ++ (toBytesBE 8 u.tid ++ toBytesBE 8 u.seq) :=
    drop_append_of_length l1
  have d16 : (toBytesBE 8 u.time ++
      (toBytesBE 8 u.id ++ (toBytesBE 8 u.tid ++ toBytesBE 8 u.seq))).drop 16 =
      toBytesBE 8 u.tid ++ toBytesBE 8 u.seq := by
    rw [show (16 : Nat) = 8 + 8 from rfl, ← List.drop_drop, d8, drop_append_of_length l2]
  have d24 : (toBytesBE 8 u.time ++
      (toBytesBE 8 u.id ++ (toBytesBE 8 u.tid ++ toBytesBE 8 u.seq))).drop 24 =
      toBytesBE 8 u.seq := by
    rw [show (24 : Nat) = 16 + 8 from rfl, ← List.drop_drop, d16, drop_append_of_length l3]
  have t4 : (toBytesBE 8 u.seq).take 8 = toBytesBE 8 u.seq :=
    List.take_of_length_le (le_of_eq l4)
  rw [take_append_of_length l1, d8, d16, d24]
  rw [take_append_of_length l2, take_append_of_length l3, t4]
  rw [fromBytesBE_toBytesBE _ _ h1, fromBytesBE_toBytesBE _ _ h2,
    fromBytesBE_toBytesBE _ _ h3, fromBytesBE_toBytesBE _ _ h4]

/-! ## Python-level errors surfaced by the embedded code paths -/

inductive PyErr where
  /-- a failing `assert` (`AssertionError`), e.g. the header checksum. -/
  | assertionError (msg : String)
  /-- `RuntimeError`, e.g. dict mutation during iteration or the
  `Execute.execute` guard. -/
  | runtimeError (msg : String)
  /-- `asyncio.IncompleteReadError`: end of stream while reading. -/
  | incompleteRead
  /-- `struct.error`: unpacking a buffer of the wrong size. -/
  | structError
  /-- `asyncio.InvalidStateError`: resolving an already-resolved future. -/
  | invalidState
deriving DecidableEq, Repr

deriving instance DecidableEq for Except

/-! ## ChunkFlags (`core.ChunkFlags`, lines 365-398)

A dict holding the four flag booleans; `encode` sums the shifted bits
(masks: `eom` bit 0, `send_ack` bit 1, `recv_ack` bit 2, `compression`
bit 3), `decode` recovers each flag as `bool((value >> shift) & 1)`. -/

structure ChunkFlags where
  eom : Bool
  send_ack : Bool
  recv_ack : Bool
  compression : Bool
deriving DecidableEq, Repr

/-- `ChunkFlags.encode`: sum of the masked, shifted flag bits. -/
def ChunkFlags.encode (f : ChunkFlags) : Nat :=
  (cond f.eom 1 0) + (cond f.send_ack 1 0) * 2
    + (cond f.recv_ack 1 0) * 4 + (cond f.compression 1 0) * 8

/-- `ChunkFlags.decode`: each flag is `bool((value >> shift) & 1)`. -/
def ChunkFlags.decode (v : Nat) : ChunkFlags :=
  ⟨decide (v % 2 = 1), decide ((v / 2) % 2 = 1),
   decide ((v / 4) % 2 = 1), decide ((v / 8) % 2 = 1)⟩

/-! ## Frame-header codec (`Channel._encode_header` / `_decode_header`,
lines 401-402 and 465-499)

`HEADER_FMT = "!32sQHI"`: 32 bytes of uid, 8 bytes of flags, 2 bytes of
channel-name length, 4 bytes of payload length; `struct.calcsize` gives
46.  The digest is `hashlib.md5(header).digest()`, 16 bytes, appended to
the packed header. -/

/-- `struct.calcsize(HEADER_FMT)` for `"!32sQHI"`. -/
def HEADER_SIZE : Nat := 46

/-- `Channel._encode_header(uid, channel_name, data, flags=...)`.  The
`md5` argument is the external `hashlib.md5(...).digest()` black box.
Channel names are carried as their UTF-8 byte strings, so the
`channel_name.encode()` call is the identity here; `if channel_name:`
is false for `None` and for the empty name alike, which
`(channelName.getD []).length` reproduces.  `data and len(data) or 0`
is 0 for `None` and for empty data. -/
def encodeHeader (md5 : List Nat → List Nat) (uid : Uid)
    (channelName : Option (List Nat)) (data : Option (List Nat))
    (flags : ChunkFlags) : List Nat :=
  let channelNameLength := (channelName.getD []).length
  let dataLength := (data.getD []).length
  let header := encodeUid uid ++ toBytesBE 8 flags.encode
    ++ toBytesBE 2 channelNameLength ++ toBytesBE 4 dataLength
  header ++ md5 header

/-- `Channel._decode_header(header)`: assert that the md5 digest of
`header[:-16]` equals `header[-16:]`, then `struct.unpack` the four
fields and rebuild the `Uid` from its 32 bytes. -/
def decodeHeader (md5 : List Nat → List Nat) (header : List Nat) :
    Except PyErr (Uid × ChunkFlags × Nat × Nat) :=
  let body := header.take (header.length - 16)
  let tail := header.drop (header.length - 16)
  if md5 body ≠ tail then .error (.assertionError "Header checksum mismatch!")
  else if body.length ≠ HEADER_SIZE then .error .structError
  else
    match decodeUid (body.take 32) with
    | none => .error .structError
    | some uid =>
      .ok (uid, ChunkFlags.decode (fromBytesBE ((body.drop 32).take 8)),
           fromBytesBE ((body.drop 40).take 2),
           fromBytesBE ((body.drop 42).take 4))

/-! ## Chunker (`core.split_data`, lines 356-362) -/

/-- The loop of `split_data`: while the remainder is nonempty, yield
the next at-most-`size` slice.  The fuel is an upper bound on the
number of iterations (`data.length` suffices whenever `size >= 1`,
since every iteration drops at least one element); it only serves Lean
totality. -/
def split_dataGo : Nat → List Nat → Nat → List (List Nat)
  | _, [], _ => []
  | 0, _ :: _, _ => []
  | fuel + 1, d :: ds, size =>
    (d :: ds).take size :: split_dataGo fuel ((d :: ds).drop size) size

/-- `split_data(data, size)`: repeatedly yield the next at-most-`size`
slice.  The source loops while `start < len(data)`, so empty input
yields no slices; with `size = 0` the source would loop forever, which
we cut off (the callers always pass `size >= 1`). -/
def split_data (data : List Nat) (size : Nat) : List (List Nat) :=
  if size = 0 then [] else split_dataGo data.length data size

/-! ## Association-list models of the Python dicts

Python dict semantics: assignment to an existing key updates the stored
value in place (keeping insertion order), assignment to a fresh key
appends, `del` removes the single matching entry.  The reassembly
`buffer` and the `Channel.acknowledgements` table are keyed by `Uid`
objects whose `__eq__` goes through Python float `==`, so their lookups
use `pyUidEq`; the string-keyed dicts use structural equality. -/

def lookupKey {κ α : Type} [DecidableEq κ] (l : List (κ × α)) (k : κ) :
    Option α :=
  (l.find? fun p => decide (p.fst = k)).map Prod.snd

def setKey {κ α : Type} [DecidableEq κ] (l : List (κ × α)) (k : κ) (v : α) :
    List (κ × α) :=
  if (l.find? fun p => decide (p.fst = k)).isSome then
    l.map fun p => if p.fst = k then (p.fst, v) else p
  else l ++ [(k, v)]

def lookupUid {α : Type} (l : List (Uid × α)) (u : Uid) : Option α :=
  (l.find? fun p => pyUidEq p.fst u).map Prod.snd

def setUid {α : Type} (l : List (Uid × α)) (u : Uid) (v : α) :
    List (Uid × α) :=
  if (l.find? fun p => pyUidEq p.fst u).isSome then
    l.map fun p => if pyUidEq p.fst u then (p.fst, v) else p
  else l ++ [(u, v)]

def eraseUid {α : Type} (l : List (Uid × α)) (u : Uid) : List (Uid × α) :=
  l.eraseP fun p => pyUidEq p.fst u

/-! ## Channel receive state and the reader loop
(`Channel._receive_single_message` / `_receive_reader`, lines 546-656) -/

/-- The state touched by the reader loop: the per-uid reassembly
`buffer`, the `Channel.acknowledgements` futures (`false` = pending,
`true` = resolved with `(uid, duration)`), the per-channel-name incoming
queues of delivered (externally decoded) messages, and the shared
outgoing queue of put items (each item a list of byte parts, as
`_send_writer` writes them). -/
structure ChanState where
  buffer : List (Uid × List Nat)
  acks : List (Uid × Bool)
  channels : List (List Nat × List (List Nat))
  outgoing : List (List (List Nat))
deriving DecidableEq, Repr

/-- `Channel._send_ack(io_queues, uid)` (lines 546-553): the header of a
frame with no channel name, no data and flags `{eom: True, recv_ack:
True}`, put on the shared outgoing queue as a single part. -/
def sendAckHeader (md5 : List Nat → List Nat) (uid : Uid) : List Nat :=
  encodeHeader md5 uid none none ⟨true, false, true, false⟩

/-- The part of `Channel._receive_single_message` after the three reads
(lines 605-635), applied to the already-read channel name and raw
payload and the unconsumed stream `s3`: append the (decompressed via the
external `inflate`) payload to the per-uid buffer, enqueue an
acknowledgement frame when `send_ack` is set, and on `eom` deliver the
decoded buffer (external codec `dec`) to the named channel queue and
resolve a pending acknowledgement future when `recv_ack` is set
(`Future.set_result` on an already-resolved future raises
`InvalidStateError`). -/
def processParsedFrame (md5 inflate dec : List Nat → List Nat)
    (st : ChanState) (uid : Uid) (flags : ChunkFlags)
    (channelNameLength dataLength : Nat) (channelName rawPart s3 : List Nat) :
    Except PyErr (ChanState × List Nat) :=
  let st1 :=
    if dataLength ≠ 0 then
      let part := if flags.compression then inflate rawPart else rawPart
      { st with buffer :=
          setUid st.buffer uid ((lookupUid st.buffer uid).getD [] ++ part) }
    else st
  let st2 :=
    if flags.send_ack then
      { st1 with outgoing := st1.outgoing ++ [[sendAckHeader md5 uid]] }
    else st1
  if flags.eom then
    let st3 :=
      if (lookupUid st2.buffer uid).isSome ∧ channelNameLength ≠ 0 then
        { st2 with
          channels := setKey st2.channels channelName
            ((lookupKey st2.channels channelName).getD []
              ++ [dec ((lookupUid st2.buffer uid).getD [])]),
          buffer := eraseUid st2.buffer uid }
      else st2
    match lookupUid st3.acks uid, flags.recv_ack with
    | some false, true => .ok ({ st3 with acks := setUid st3.acks uid true }, s3)
    | some true, true => .error .invalidState
    | _, _ => .ok (st3, s3)
  else .ok (st2, s3)

/-- `Channel._receive_single_message` (lines 596-635): read one header
(`HEADER_SIZE + 16` bytes), decode it, read the channel name and the
payload, then continue with `processParsedFrame`.  `readexactly` raises
`IncompleteReadError` when the stream ends early.  Returns the new state
and the unconsumed stream. -/
def receiveSingleMessage (md5 inflate dec : List Nat → List Nat)
    (st : ChanState) (stream : List Nat) :
    Except PyErr (ChanState × List Nat) :=
  if stream.length < HEADER_SIZE + 16 then .error .incompleteRead
  else
    match decodeHeader md5 (stream.take (HEADER_SIZE + 16)) with
    | .error e => .error e
    | .ok (uid, flags, channelNameLength, dataLength) =>
      let s1 := stream.drop (HEADER_SIZE + 16)
      if s1.length < channelNameLength then .error .incompleteRead
      else
        let channelName := s1.take channelNameLength
        let s2 := s1.drop channelNameLength
        if s2.length < dataLength then .error .incompleteRead
        else
          processParsedFrame md5 inflate dec st uid flags
            channelNameLength dataLength channelName (s2.take dataLength)
            (s2.drop dataLength)

/-- The body of `Channel._receive_reader` (lines 637-656), fuel-indexed:
repeat `_receive_single_message`; `IncompleteReadError` (EOF) and
cancellation end the loop normally (with a logged warning), any other
error is re-raised.  The fuel only serves Lean totality: each iteration
consumes at least one byte, so `stream.length + 1` is always enough. -/
def receiveReaderGo (md5 inflate dec : List Nat → List Nat) :
    Nat → ChanState → List Nat → Except PyErr ChanState
  | 0, st, _ => .ok st
  | fuel + 1, st, stream =>
    match receiveSingleMessage md5 inflate dec st stream with
    | .error .incompleteRead => .ok st
    | .error e => .error e
    | .ok (st', rest) => receiveReaderGo md5 inflate dec fuel st' rest

/-- `Channel._receive_reader(io_queues, reader)` run over a finite
(closed) byte stream. -/
def receiveReader (md5 inflate dec : List Nat → List Nat)
    (st : ChanState) (stream : List Nat) : Except PyErr ChanState :=
  receiveReaderGo md5 inflate dec (stream.length + 1) st stream

/-! ## Channel send (`Channel.send`, lines 501-544) -/

/-- `Channel.chunk_size`. -/
def chunkSize : Nat := 0x8000

/-- The queue items put by one `Channel.send` call: for every
`split_data` slice a `(header, name, part)` tuple with flags
`{eom: False, send_ack: False, compression: bool(compress)}` (the part
run through the external `deflate` when `compress` is nonzero), then one
terminal `(header, name)` tuple with flags
`{eom: True, send_ack: ack, compression: False}`.  `payload` stands for
the externally encoded data bytes. -/
def sendFrames (md5 deflate : List Nat → List Nat) (compress : Nat)
    (uid : Uid) (name payload : List Nat) (size : Nat) (ack : Bool) :
    List (List (List Nat)) :=
  ((split_data payload size).map fun part =>
    let part := if compress ≠ 0 then deflate part else part
    [encodeHeader md5 uid (some name) (some part)
       ⟨false, false, false, decide (compress ≠ 0)⟩, name, part])
  ++ [[encodeHeader md5 uid (some name) none ⟨true, ack, false, false⟩, name]]

/-- The state effect of `Channel.send`: enqueue all frames on the shared
outgoing queue and, when `ack` is requested, register a fresh pending
acknowledgement future keyed by the message uid (`acknowledgements[uid]
= ack_future`); the caller then suspends on that future. -/
def channelSend (md5 deflate : List Nat → List Nat) (compress : Nat)
    (st : ChanState) (uid : Uid) (name payload : List Nat) (size : Nat)
    (ack : Bool) : ChanState :=
  let st1 := { st with outgoing :=
    st.outgoing ++ sendFrames md5 deflate compress uid name payload size ack }
  if ack then { st1 with acks := setUid st1.acks uid false } else st1

/-- What `Channel._send_writer` (lines 571-594) writes to the pipe for a
queue prefix: every part of every item, in order. -/
def wireBytes (items : List (List (List Nat))) : List Nat :=
  (items.map List.flatten).flatten

/-! ## Execute teardown (`Execute.execute_io_queues`, lines 897-914)

After the listener loop is cancelled the source runs

  for fqin, fut in cls.pending_commands.items():
      fut.cancel()
      del cls.pending_commands[fqin]

CPython dict iterators snapshot the size at creation; every `__next__`
first compares the current size against that snapshot and raises
`RuntimeError` (dictionary changed size during iteration) when they
differ.  Since the body deletes the just-yielded key, the second
`__next__` always sees a smaller dict.  The table is modelled by its
ordered list of fqin keys; the futures themselves are summarised by the
returned list of fqins that got cancelled. -/

/-- One run of the teardown loop: `diUsed` is the iterator snapshot,
`pos` the iterator position, `cancelled` the fqins cancelled so far.
Returns the remaining table, the cancelled fqins and whether
`RuntimeError` was raised.  The fuel only serves totality. -/
def teardownGo : Nat → Nat → List String → Nat → List String →
    List String × List String × Bool
  | 0, _, table, _, cancelled => (table, cancelled, false)
  | fuel + 1, diUsed, table, pos, cancelled =>
    if table.length ≠ diUsed then (table, cancelled, true)
    else
      match table.drop pos with
      | [] => (table, cancelled, false)
      | fqin :: _ =>
        teardownGo fuel diUsed (table.erase fqin) (pos + 1)
          (cancelled ++ [fqin])

/-- The teardown block of `Execute.execute_io_queues` applied to the
`pending_commands` table. -/
def executeTeardown (table : List String) :
    List String × List String × Bool :=
  teardownGo (table.length + 1) table.length table 0 []

/-! ## Command registration (`_CommandMeta.__new__`, lines 681-695)

`command_name = ":".join((module_name, name))`; the first class created
becomes the base and is not registered; every later class is stored with
`mcs.commands[command_name] = cls`, an unconditional dict assignment.
Classes are identified by an opaque numeric id. -/

structure CommandRegistry where
  base : Option Nat
  commands : List (String × Nat)
deriving DecidableEq, Repr

/-- `_CommandMeta.__new__` restricted to its registration effect. -/
def registerCommandClass (st : CommandRegistry) (moduleName clsName : String)
    (cls : Nat) : CommandRegistry :=
  let commandName := moduleName ++ ":" ++ clsName
  match st.base with
  | none => { st with base := some cls }
  | some _ => { st with commands := setKey st.commands commandName cls }

/-! ## Command execution dispatch (`Command.execute`, lines 776-781;
`Execute.execute`, lines 888-890; `Execute.remote_future` /
`Execute.local`, lines 925-954) -/

/-- A command instance is either the `Execute` meta-command itself or an
instance of any other registered `Command` subclass. -/
inductive CommandClassT where
  | executeCls
  | otherCls (qualifiedName : String)
deriving DecidableEq, Repr

/-- The message of the `RuntimeError` raised by `Execute.execute`. -/
def executeDirectMsg : String :=
  "Do not invoke `await Execute()` directly, instead use `await Command(**params)`)"

/-- Transport state plus the process-wide `Execute.pending_commands`
table (keyed by the command channel-name bytes; `false` = pending). -/
structure ExecState where
  chan : ChanState
  pending : List (List Nat × Bool)
deriving DecidableEq, Repr

/-- The dispatch step of `Execute.local` via `remote_future.__aenter__`:
send the encoded `ExecuteArgs(fqin, params)` envelope (bytes `envelope`,
external codec) on the `Execute` control channel with `ack=True` —
suspending the caller on the registered acknowledgement future — and
obtain the pending-command future `pending_commands[channel_name]`
(a `defaultdict`, so the entry is created pending). -/
def executeLocalDispatch (md5 deflate : List Nat → List Nat)
    (compress : Nat) (st : ExecState)
    (executeChannelName cmdChannelName : List Nat) (uid : Uid)
    (envelope : List Nat) (size : Nat) : ExecState :=
  { chan := channelSend md5 deflate compress st.chan uid
      executeChannelName envelope size true,
    pending := setKey st.pending cmdChannelName false }

/-- Method dispatch for `instance.execute()`: `Execute` overrides
`Command.execute` with an unconditional `raise RuntimeError(...)`; every
other command class inherits `Command.execute`, which delegates to
`Execute(io_queues, self).local()`, whose first step is
`executeLocalDispatch`. -/
def commandExecuteStep (md5 deflate : List Nat → List Nat)
    (compress : Nat) (cls : CommandClassT) (st : ExecState)
    (executeChannelName cmdChannelName : List Nat) (uid : Uid)
    (envelope : List Nat) (size : Nat) : Except PyErr ExecState :=
  match cls with
  | .executeCls => .error (.runtimeError executeDirectMsg)
  | .otherCls _ => .ok (executeLocalDispatch md5 deflate compress st
      executeChannelName cmdChannelName uid envelope size)

/-! ## Concrete stand-ins for the closed statements -/

/-- Constant 16-byte digest standing in for the external md5. -/
def md5Stub : List Nat → List Nat := fun _ => List.replicate 16 0

/-- Identity stand-in for the external compressor and codec. -/
def idBytes : List Nat → List Nat := fun bs => bs

/-- An in-range sample uid (time pattern 1 is an ordinary denormal). -/
def uid0 : Uid := ⟨1, 2, 3, 4⟩

/-- A uid whose timestamp bit pattern is an IEEE-754 quiet NaN. -/
def uidNan : Uid := ⟨0x7ff8000000000000, 2, 3, 4⟩

/-- A one-byte channel name. -/
def name0 : List Nat := [99]

/-- The empty transport state. -/
def chanState0 : ChanState := ⟨[], [], [], []⟩

/-! ## Shared lemmas -/

theorem chunkFlags_decode_encode (f : ChunkFlags) :
    ChunkFlags.decode f.encode = f := by
  obtain ⟨e, s, r, c⟩ := f
  cases e <;> cases s <;> cases r <;> cases c <;> decide

theorem chunkFlags_encode_le (f : ChunkFlags) : f.encode ≤ 15 := by
  obtain ⟨e, s, r, c⟩ := f
  cases e <;> cases s <;> cases r <;> cases c <;> decide

theorem pyFloat64Eq_refl (p : Nat) (h : isNanPattern p = false) :
    pyFloat64Eq p p = true := by
  simp [pyFloat64Eq, h]

theorem pyUidEq_refl (u : Uid) (h : isNanPattern u.time = false) :
    pyUidEq u u = true := by
  simp [pyUidEq, pyFloat64Eq_refl _ h]

theorem headerBody_length (u32 f8 n2 d4 : List Nat)
    (h1 : u32.length = 32) (h2 : f8.length = 8) (h3 : n2.length = 2)
    (h4 : d4.length = 4) : (u32 ++ (f8 ++ (n2 ++ d4))).length = 46 := by
  simp [List.length_append, h1, h2, h3, h4]

theorem headerBody_take32 (u32 rest : List Nat) (h1 : u32.length = 32) :
    (u32 ++ rest).take 32 = u32 :=
  take_append_of_length h1

theorem headerBody_drop32 (u32 rest : List Nat) (h1 : u32.length = 32) :
    (u32 ++ rest).drop 32 = rest :=
  drop_append_of_length h1

theorem headerBody_drop40 (u32 f8 rest : List Nat)
    (h1 : u32.length = 32) (h2 : f8.length = 8) :
    (u32 ++ (f8 ++ rest)).drop 40 = rest := by
  rw [show (40 : Nat) = 32 + 8 from rfl, ← List.drop_drop,
    headerBody_drop32 _ _ h1, drop_append_of_length h2]

theorem headerBody_drop42 (u32 f8 n2 rest : List Nat)
    (h1 : u32.length = 32) (h2 : f8.length = 8) (h3 : n2.length = 2) :
    (u32 ++ (f8 ++ (n2 ++ rest))).drop 42 = rest := by
  rw [show (42 : Nat) = 40 + 2 from rfl, ← List.drop_drop,
    headerBody_drop40 _ _ _ h1 h2, drop_append_of_length h3]

theorem encodeHeader_length (md5 : List Nat → List Nat) (uid : Uid)
    (cn dt : Option (List Nat)) (flags : ChunkFlags)
    (hdig : ∀ bs, (md5 bs).length = 16) :
    (encodeHeader md5 uid cn dt flags).length = 62 := by
  simp [encodeHeader, List.length_append, encodeUid_length, toBytesBE_length,
    hdig]

theorem decodeHeader_encodeHeader (md5 : List Nat → List Nat) (uid : Uid)
    (cn dt : Option (List Nat)) (flags : ChunkFlags)
    (hdig : ∀ bs, (md5 bs).length = 16) (hu : uid.inRange)
    (hn : (cn.getD []).length < 2 ^ 16) (hd : (dt.getD []).length < 2 ^ 32) :
    decodeHeader md5 (encodeHeader md5 uid cn dt flags)
      = .ok (uid, flags, (cn.getD []).length, (dt.getD []).length) := by
  have hu32 : (encodeUid uid).length = 32 := encodeUid_length uid
  have hf8 : (toBytesBE 8 flags.encode).length = 8 := toBytesBE_length _ _
  have hn2 : (toBytesBE 2 (cn.getD []).length).length = 2 := toBytesBE_length _ _
  have hd4 : (toBytesBE 4 (dt.getD []).length).length = 4 := toBytesBE_length _ _
  have hBassoc : encodeUid uid ++ toBytesBE 8 flags.encode
      ++ toBytesBE 2 (cn.getD []).length ++ toBytesBE 4 (dt.getD []).length
      = encodeUid uid ++ (toBytesBE 8 flags.encode
        ++ (toBytesBE 2 (cn.getD []).length ++ toBytesBE 4 (dt.getD []).length)) := by
    simp [List.append_assoc]
  have hB : (encodeUid uid ++ (toBytesBE 8 flags.encode
      ++ (toBytesBE 2 (cn.getD []).length ++ toBytesBE 4 (dt.getD []).length))).length
      = 46 := headerBody_length _ _ _ _ hu32 hf8 hn2 hd4
  have hH : encodeHeader md5 uid cn dt flags
      = (encodeUid uid ++ (toBytesBE 8 flags.encode
        ++ (toBytesBE 2 (cn.getD []).length ++ toBytesBE 4 (dt.getD []).length)))
        ++ md5 (encodeUid uid ++ (toBytesBE 8 flags.encode
          ++ (toBytesBE 2 (cn.getD []).length ++ toBytesBE 4 (dt.getD []).length))) := by
    rw [encodeHeader, ← hBassoc]
  have hHlen : (encodeHeader md5 uid cn dt flags).length = 62 :=
    encodeHeader_length md5 uid cn dt flags hdig
  rw [decodeHeader, hHlen, hH]
  rw [take_append_of_length hB, drop_append_of_length hB]
  rw [if_neg (by simp)]
  rw [if_neg (by rw [hB, HEADER_SIZE]; simp)]
  rw [headerBody_take32 _ _ hu32, decodeUid_encodeUid uid hu]
  rw [headerBody_drop32 _ _ hu32, headerBody_drop40 _ _ _ hu32 hf8,
    headerBody_drop42 _ _ _ _ hu32 hf8 hn2]
  rw [take_append_of_length hf8, take_append_of_length hn2,
    List.take_of_length_le (le_of_eq hd4)]
  have he : flags.encode < 2 ^ (8 * 8) :=
    lt_of_le_of_lt (chunkFlags_encode_le flags) (by norm_num)
  rw [fromBytesBE_toBytesBE _ _ he, chunkFlags_decode_encode]
  rw [fromBytesBE_toBytesBE _ _ (by norm_num at hn ⊢; exact hn),
    fromBytesBE_toBytesBE _ _ (by norm_num at hd ⊢; exact hd)]

theorem find?_map_setKey {κ α : Type} [DecidableEq κ] (l : List (κ × α))
    (k : κ) (v : α) :
    ((l.map fun p => if p.fst = k then (p.fst, v) else p).find?
        fun p => decide (p.fst = k))
      = ((l.find? fun p => decide (p.fst = k)).map fun p => (p.fst, v)) := by
  induction l with
  | nil => rfl
  | cons hd tl ih =>
    by_cases h : hd.fst = k
    · simp [List.find?_cons, h]
    · simp [List.find?_cons, h, ih]

theorem lookupKey_setKey {κ α : Type} [DecidableEq κ] (l : List (κ × α))
    (k : κ) (v : α) : lookupKey (setKey l k v) k = some v := by
  rw [setKey]
  by_cases h : (l.find? fun p => decide (p.fst = k)).isSome
  · rw [if_pos h, lookupKey, find?_map_setKey]
    obtain ⟨p, hp⟩ := Option.isSome_iff_exists.mp h
    rw [hp]
    rfl
  · rw [if_neg h, lookupKey, List.find?_append]
    rw [Option.not_isSome_iff_eq_none] at h
    simp [h]

theorem setKey_length {κ α : Type} [DecidableEq κ] (l : List (κ × α))
    (k : κ) (v : α) (h : (l.find? fun p => decide (p.fst = k)).isSome) :
    (setKey l k v).length = l.length := by
  rw [setKey, if_pos h, List.length_map]

theorem find?_map_setUid {α : Type} (l : List (Uid × α)) (u : Uid) (v : α) :
    ((l.map fun p => if pyUidEq p.fst u then (p.fst, v) else p).find?
        fun p => pyUidEq p.fst u)
      = ((l.find? fun p => pyUidEq p.fst u).map fun p => (p.fst, v)) := by
  induction l with
  | nil => rfl
  | cons hd tl ih =>
    by_cases h : pyUidEq hd.fst u = true
    · simp [List.find?_cons, h]
    · rw [Bool.not_eq_true] at h
      simp only [List.map_cons, h, if_neg Bool.false_ne_true, List.find?_cons, h]
      exact ih

theorem lookupUid_setUid {α : Type} (l : List (Uid × α)) (u : Uid) (v : α)
    (hrefl : pyUidEq u u = true) :
    lookupUid (setUid l u v) u = some v := by
  rw [setUid]
  by_cases h : (l.find? fun p => pyUidEq p.fst u).isSome
  · rw [if_pos h, lookupUid, find?_map_setUid]
    obtain ⟨p, hp⟩ := Option.isSome_iff_exists.mp h
    rw [hp]
    rfl
  · rw [if_neg h, lookupUid, List.find?_append]
    rw [Option.not_isSome_iff_eq_none] at h
    simp [h, hrefl]

theorem lookupUid_nil {α : Type} (u : Uid) : lookupUid ([] : List (Uid × α)) u = none :=
  rfl

theorem setUid_nil {α : Type} (u : Uid) (v : α) :
    setUid ([] : List (Uid × α)) u v = [(u, v)] :=
  rfl

theorem lookupUid_singleton {α : Type} (u : Uid) (a : α)
    (hrefl : pyUidEq u u = true) : lookupUid [(u, a)] u = some a := by
  simp [lookupUid, List.find?_cons, hrefl]

theorem setUid_singleton {α : Type} (u : Uid) (a v : α)
    (hrefl : pyUidEq u u = true) : setUid [(u, a)] u v = [(u, v)] := by
  simp [setUid, List.find?_cons, hrefl]

theorem eraseUid_singleton {α : Type} (u : Uid) (a : α)
    (hrefl : pyUidEq u u = true) : eraseUid [(u, a)] u = [] := by
  simp [eraseUid, List.eraseP_cons, hrefl]

theorem receiveSingleMessage_frame (md5 inflate dec : List Nat → List Nat)
    (st : ChanState) (uid : Uid) (flags : ChunkFlags)
    (name data rest : List Nat)
    (hdig : ∀ bs, (md5 bs).length = 16) (hu : uid.inRange)
    (hn : name.length < 2 ^ 16) (hd : data.length < 2 ^ 32) :
    receiveSingleMessage md5 inflate dec st
        (encodeHeader md5 uid (some name) (some data) flags
          ++ (name ++ (data ++ rest)))
      = processParsedFrame md5 inflate dec st uid flags name.length data.length
          name data rest := by
  have hH : (encodeHeader md5 uid (some name) (some data) flags).length = 62 :=
    encodeHeader_length _ _ _ _ _ hdig
  have hdec : decodeHeader md5 (encodeHeader md5 uid (some name) (some data) flags)
      = .ok (uid, flags, name.length, data.length) :=
    decodeHeader_encodeHeader md5 uid (some name) (some data) flags hdig hu hn hd
  have hsz : HEADER_SIZE + 16 = 62 := rfl
  have hname : (name ++ (data ++ rest)).take name.length = name :=
    take_append_of_length rfl
  have hname2 : (name ++ (data ++ rest)).drop name.length = data ++ rest :=
    drop_append_of_length rfl
  have hdata : (data ++ rest).take data.length = data :=
    take_append_of_length rfl
  have hdata2 : (data ++ rest).drop data.length = rest :=
    drop_append_of_length rfl
  rw [receiveSingleMessage, hsz, take_append_of_length hH,
    drop_append_of_length hH, hdec]
  rw [if_neg (by simp [List.length_append, hH])]
  simp only [hname, hname2, hdata, hdata2]
  rw [if_neg (by simp [List.length_append])]
  rw [if_neg (by simp [List.length_append])]

theorem encodeHeader_none_data (md5 : List Nat → List Nat) (uid : Uid)
    (cn : Option (List Nat)) (flags : ChunkFlags) :
    encodeHeader md5 uid cn none flags = encodeHeader md5 uid cn (some []) flags :=
  rfl

theorem split_dataGo_flatten (fuel : Nat) :
    ∀ (data : List Nat) (size : Nat), data.length ≤ fuel → size ≠ 0 →
      (split_dataGo fuel data size).flatten = data := by
  induction fuel with
  | zero =>
    intro data size hle _
    rw [List.length_eq_zero.mp (Nat.le_zero.mp hle)]
    rfl
  | succ fuel ih =>
    intro data size hle hs
    cases data with
    | nil => rfl
    | cons d ds =>
      rw [split_dataGo, List.flatten_cons, ih ((d :: ds).drop size) size
        (by rw [List.length_drop]; simp at hle ⊢; omega) hs]
      exact List.take_append_drop size (d :: ds)

theorem split_data_flatten (data : List Nat) (size : Nat) (hs : size ≠ 0) :
    (split_data data size).flatten = data := by
  rw [split_data, if_neg hs]
  exact split_dataGo_flatten data.length data size le_rfl hs

theorem split_dataGo_mem (fuel : Nat) :
    ∀ (data : List Nat) (size : Nat), size ≠ 0 →
      ∀ c ∈ split_dataGo fuel data size, c ≠ [] ∧ c.length ≤ data.length := by
  induction fuel with
  | zero =>
    intro data size _ c hc
    cases data <;> simp [split_dataGo] at hc
  | succ fuel ih =>
    intro data size hs c hc
    cases data with
    | nil => simp [split_dataGo] at hc
    | cons d ds =>
      rw [split_dataGo] at hc
      rcases List.mem_cons.mp hc with rfl | hc
      · refine ⟨?_, by rw [List.length_take]; omega⟩
        simp only [ne_eq, List.take_eq_nil_iff, not_or]
        exact ⟨fun hcon => hs hcon, fun hcon => List.cons_ne_nil d ds hcon⟩
      · obtain ⟨hne, hle⟩ := ih ((d :: ds).drop size) size hs c hc
        refine ⟨hne, le_trans hle ?_⟩
        rw [List.length_drop]
        omega

theorem split_data_mem (data : List Nat) (size : Nat) :
    ∀ c ∈ split_data data size, c ≠ [] ∧ c.length ≤ data.length := by
  by_cases hs : size = 0
  · simp [split_data, hs]
  · rw [split_data, if_neg hs]
    exact split_dataGo_mem data.length data size hs

theorem receiveReaderGo_nil (md5 inflate dec : List Nat → List Nat)
    (fuel : Nat) (st : ChanState) :
    receiveReaderGo md5 inflate dec fuel st [] = .ok st := by
  cases fuel with
  | zero => rfl
  | succ f => rfl

/-- Processing one data frame (`eom=False, send_ack=False,
compression=False`) appends its payload to the per-uid buffer and
touches nothing else. -/
theorem processParsedFrame_data (md5 inflate dec : List Nat → List Nat)
    (st : ChanState) (uid : Uid) (nameLen : Nat) (name data rest : List Nat)
    (hne : data ≠ []) :
    processParsedFrame md5 inflate dec st uid ⟨false, false, false, false⟩
        nameLen data.length name data rest
      = .ok ({ st with
               buffer := setUid st.buffer uid
                 ((lookupUid st.buffer uid).getD [] ++ data) },
          rest) := by
  have hlen : data.length ≠ 0 := fun hcon => hne (List.length_eq_zero.mp hcon)
  simp [processParsedFrame, hlen]

/-- Processing a terminal frame (`eom=True, send_ack=False,
recv_ack=False`) with no payload, when no acknowledgement future is
registered for the uid: deliver the buffered message iff the uid has a
buffer entry and the frame carries a channel name. -/
theorem processParsedFrame_eom (md5 inflate dec : List Nat → List Nat)
    (st : ChanState) (uid : Uid) (nameLen : Nat) (name rest : List Nat)
    (hack : lookupUid st.acks uid = none) :
    processParsedFrame md5 inflate dec st uid ⟨true, false, false, false⟩
        nameLen 0 name [] rest
      = .ok ((if (lookupUid st.buffer uid).isSome ∧ nameLen ≠ 0 then
          { st with
            channels := setKey st.channels name
              ((lookupKey st.channels name).getD []
                ++ [dec ((lookupUid st.buffer uid).getD [])]),
            buffer := eraseUid st.buffer uid }
        else st), rest) := by
  by_cases h : (lookupUid st.buffer uid).isSome ∧ nameLen ≠ 0
  · simp [processParsedFrame, h, hack]
  · simp only [processParsedFrame, ne_eq, not_true_eq_false, if_false,
      Bool.false_eq_true, if_neg h, hack, if_neg (by simp : ¬(0 ≠ 0))]
    simp [hack]

theorem receiveReaderGo_step (md5 inflate dec : List Nat → List Nat)
    (fuel : Nat) (st st' : ChanState) (stream rest : List Nat)
    (h : receiveSingleMessage md5 inflate dec st stream = .ok (st', rest)) :
    receiveReaderGo md5 inflate dec (fuel + 1) st stream
      = receiveReaderGo md5 inflate dec fuel st' rest := by
  simp only [receiveReaderGo, h]

theorem receiveReaderGo_chunks (md5 inflate dec : List Nat → List Nat)
    (uid : Uid) (name : List Nat)
    (hdig : ∀ bs, (md5 bs).length = 16) (hu : uid.inRange)
    (hrefl : pyUidEq uid uid = true) (hn : name.length < 2 ^ 16) :
    ∀ (chunks : List (List Nat)) (fuel : Nat) (acc : List Nat)
      (ak : List (Uid × Bool)) (ch : List (List Nat × List (List Nat)))
      (og : List (List (List Nat))) (tail : List Nat),
      chunks.length < fuel →
      (∀ c ∈ chunks, c ≠ [] ∧ c.length < 2 ^ 32) →
      receiveReaderGo md5 inflate dec fuel ⟨[(uid, acc)], ak, ch, og⟩
          ((chunks.map fun c =>
              encodeHeader md5 uid (some name) (some c)
                  ⟨false, false, false, false⟩
                ++ (name ++ c)).flatten ++ tail)
        = receiveReaderGo md5 inflate dec (fuel - chunks.length)
            ⟨[(uid, acc ++ chunks.flatten)], ak, ch, og⟩ tail := by
  intro chunks
  induction chunks with
  | nil =>
    intro fuel acc ak ch og tail hfuel hc
    simp
  | cons c cs ih =>
    intro fuel acc ak ch og tail hfuel hc
    obtain ⟨hcne, hclen⟩ := hc c (List.mem_cons_self c cs)
    cases fuel with
    | zero => omega
    | succ f =>
      have hstream : ((c :: cs).map fun c =>
          encodeHeader md5 uid (some name) (some c) ⟨false, false, false, false⟩
            ++ (name ++ c)).flatten ++ tail
          = encodeHeader md5 uid (some name) (some c) ⟨false, false, false, false⟩
            ++ (name ++ (c ++ ((cs.map fun c =>
                encodeHeader md5 uid (some name) (some c)
                    ⟨false, false, false, false⟩
                  ++ (name ++ c)).flatten ++ tail))) := by
        simp [List.append_assoc]
      have hmsg : receiveSingleMessage md5 inflate dec ⟨[(uid, acc)], ak, ch, og⟩
          (encodeHeader md5 uid (some name) (some c) ⟨false, false, false, false⟩
            ++ (name ++ (c ++ ((cs.map fun c =>
                encodeHeader md5 uid (some name) (some c)
                    ⟨false, false, false, false⟩
                  ++ (name ++ c)).flatten ++ tail))))
          = .ok (⟨[(uid, acc ++ c)], ak, ch, og⟩,
              (cs.map fun c =>
                encodeHeader md5 uid (some name) (some c)
                    ⟨false, false, false, false⟩
                  ++ (name ++ c)).flatten ++ tail) := by
        rw [receiveSingleMessage_frame md5 inflate dec _ uid _ name c _ hdig hu hn hclen]
        rw [processParsedFrame_data md5 inflate dec _ uid _ name c _ hcne]
        rw [lookupUid_singleton uid acc hrefl, setUid_singleton uid acc _ hrefl]
        simp
      rw [hstream, receiveReaderGo_step md5 inflate dec f _ _ _ _ hmsg]
      rw [ih f (acc ++ c) ak ch og tail (by simpa using hfuel)
        (fun x hx => hc x (List.mem_cons_of_mem c hx))]
      simp [List.append_assoc]

theorem length_le_flatten_length (l : List (List Nat))
    (h : ∀ x ∈ l, x ≠ []) : l.length ≤ l.flatten.length := by
  induction l with
  | nil => simp
  | cons a as ih =>
    have ha : 1 ≤ a.length :=
      Nat.one_le_iff_ne_zero.mpr fun hcon =>
        h a (List.mem_cons_self a as) (List.length_eq_zero.mp hcon)
    have has := ih fun x hx => h x (List.mem_cons_of_mem a hx)
    simp only [List.flatten_cons, List.length_cons, List.length_append]
    omega

theorem sendFrames_zero (md5 deflate : List Nat → List Nat) (uid : Uid)
    (name payload : List Nat) (n : Nat) (ack : Bool) :
    sendFrames md5 deflate 0 uid name payload n ack
      = ((split_data payload n).map fun part =>
          [encodeHeader md5 uid (some name) (some part)
             ⟨false, false, false, false⟩, name, part])
        ++ [[encodeHeader md5 uid (some name) none ⟨true, ack, false, false⟩,
             name]] := by
  rw [sendFrames]
  simp

/-- One complete `Channel.send` (with `compress=0`, no acknowledgement
request) pushed through the reader loop from the empty state: a
nonempty payload is reassembled and delivered on the named channel, an
empty payload is never delivered because the terminal frame finds no
buffer entry for its uid. -/
theorem receiveReader_sendFrames (md5 inflate dec deflate : List Nat → List Nat)
    (uid : Uid) (name payload : List Nat) (n : Nat)
    (hdig : ∀ bs, (md5 bs).length = 16) (hu : uid.inRange)
    (hnn : isNanPattern uid.time = false) (hn1 : 1 ≤ n)
    (hname : name.length < 2 ^ 16) (hname0 : name ≠ [])
    (hpay : payload.length < 2 ^ 32) :
    receiveReader md5 inflate dec chanState0
        (wireBytes (sendFrames md5 deflate 0 uid name payload n false))
      = .ok ⟨[], [],
          if payload = [] then [] else [(name, [dec payload])], []⟩ := by
  have hrefl : pyUidEq uid uid = true := pyUidEq_refl uid hnn
  have hnz : name.length ≠ 0 := fun hcon => hname0 (List.length_eq_zero.mp hcon)
  have hframes : wireBytes (sendFrames md5 deflate 0 uid name payload n false)
      = ((split_data payload n).map fun c =>
          encodeHeader md5 uid (some name) (some c) ⟨false, false, false, false⟩
            ++ (name ++ c)).flatten
        ++ (encodeHeader md5 uid (some name) (some []) ⟨true, false, false, false⟩
            ++ (name ++ ([] ++ ([] : List Nat)))) := by
    rw [sendFrames_zero, wireBytes]
    rw [List.map_append, List.flatten_append, List.map_map]
    have h1 : (List.flatten ∘ fun part : List Nat =>
          [encodeHeader md5 uid (some name) (some part)
             ⟨false, false, false, false⟩, name, part])
        = fun c => encodeHeader md5 uid (some name) (some c)
            ⟨false, false, false, false⟩ ++ (name ++ c) := by
      funext part
      simp [Function.comp]
    rw [h1]
    simp [encodeHeader_none_data]
  have hmsgT : ∀ buf : List Nat,
      receiveSingleMessage md5 inflate dec ⟨[(uid, buf)], [], [], []⟩
          (encodeHeader md5 uid (some name) (some []) ⟨true, false, false, false⟩
            ++ (name ++ ([] ++ ([] : List Nat))))
        = .ok (⟨[], [], [(name, [dec buf])], []⟩, []) := by
    intro buf
    rw [receiveSingleMessage_frame md5 inflate dec _ uid _ name [] [] hdig hu hname
      (by norm_num)]
    rw [show ([] : List Nat).length = 0 from rfl]
    rw [processParsedFrame_eom md5 inflate dec ⟨[(uid, buf)], [], [], []⟩ uid _
      name [] rfl]
    rw [if_pos]
    · simp [lookupUid_singleton uid buf hrefl, eraseUid_singleton uid buf hrefl,
        setKey, lookupKey]
    · exact ⟨by simp [lookupUid_singleton uid buf hrefl], hnz⟩
  rw [receiveReader, hframes]
  by_cases hpe : payload = []
  · subst hpe
    rw [show split_data [] n = [] from by
      by_cases h : n = 0 <;> simp [split_data, h, split_dataGo]]
    rw [List.map_nil, List.flatten_nil, List.nil_append]
    have hstep : receiveSingleMessage md5 inflate dec chanState0
        (encodeHeader md5 uid (some name) (some []) ⟨true, false, false, false⟩
          ++ (name ++ ([] ++ ([] : List Nat))))
        = .ok (chanState0, []) := by
      rw [receiveSingleMessage_frame md5 inflate dec _ uid _ name [] [] hdig hu hname
        (by norm_num)]
      rw [show ([] : List Nat).length = 0 from rfl]
      rw [processParsedFrame_eom md5 inflate dec chanState0 uid _ name [] rfl]
      rw [if_neg]
      simp [chanState0, lookupUid]
    rw [receiveReaderGo_step md5 inflate dec _ _ _ _ _ hstep]
    rw [receiveReaderGo_nil]
    simp [chanState0]
  · rcases hsp : split_data payload n with _ | ⟨c, cs⟩
    · exact absurd (by rw [← split_data_flatten payload n (by omega), hsp]; rfl)
        (Ne.symm hpe)
    have hcs := split_data_mem payload n
    rw [hsp] at hcs
    have hc0 := hcs c (List.mem_cons_self c cs)
    have hcsall : ∀ x ∈ cs, x ≠ [] ∧ x.length < 2 ^ 32 := by
      intro x hx
      obtain ⟨hx1, hx2⟩ := hcs x (List.mem_cons_of_mem c hx)
      exact ⟨hx1, lt_of_le_of_lt hx2 hpay⟩
    have hS : ((c :: cs).map fun c =>
          encodeHeader md5 uid (some name) (some c) ⟨false, false, false, false⟩
            ++ (name ++ c)).flatten
        ++ (encodeHeader md5 uid (some name) (some []) ⟨true, false, false, false⟩
            ++ (name ++ ([] ++ ([] : List Nat))))
        = encodeHeader md5 uid (some name) (some c) ⟨false, false, false, false⟩
          ++ (name ++ (c ++ ((cs.map fun c =>
              encodeHeader md5 uid (some name) (some c) ⟨false, false, false, false⟩
                ++ (name ++ c)).flatten
            ++ (encodeHeader md5 uid (some name) (some [])
                  ⟨true, false, false, false⟩
              ++ (name ++ ([] ++ ([] : List Nat))))))) := by
      simp [List.append_assoc]
    rw [hS]
    have hstep0 : receiveSingleMessage md5 inflate dec chanState0
        (encodeHeader md5 uid (some name) (some c) ⟨false, false, false, false⟩
          ++ (name ++ (c ++ ((cs.map fun c =>
              encodeHeader md5 uid (some name) (some c) ⟨false, false, false, false⟩
                ++ (name ++ c)).flatten
            ++ (encodeHeader md5 uid (some name) (some [])
                  ⟨true, false, false, false⟩
              ++ (name ++ ([] ++ ([] : List Nat))))))))
        = .ok (⟨[(uid, c)], [], [], []⟩,
            (cs.map fun c =>
              encodeHeader md5 uid (some name) (some c) ⟨false, false, false, false⟩
                ++ (name ++ c)).flatten
            ++ (encodeHeader md5 uid (some name) (some [])
                  ⟨true, false, false, false⟩
              ++ (name ++ ([] ++ ([] : List Nat))))) := by
      rw [receiveSingleMessage_frame md5 inflate dec _ uid _ name c _ hdig hu hname
        (lt_of_le_of_lt hc0.2 hpay)]
      rw [processParsedFrame_data md5 inflate dec _ uid _ name c _ hc0.1]
      simp [chanState0, setUid, lookupUid]
    rw [receiveReaderGo_step md5 inflate dec _ _ _ _ _ hstep0]
    have hmapne : ∀ x ∈ (cs.map fun c =>
        encodeHeader md5 uid (some name) (some c) ⟨false, false, false, false⟩
          ++ (name ++ c)), x ≠ [] := by
      intro x hx
      obtain ⟨y, _, rfl⟩ := List.mem_map.mp hx
      intro hcon
      have := congrArg List.length hcon
      simp [List.length_append, encodeHeader_length _ _ _ _ _ hdig] at this
    have hlt : cs.length < (encodeHeader md5 uid (some name) (some c)
          ⟨false, false, false, false⟩
        ++ (name ++ (c ++ ((cs.map fun c =>
            encodeHeader md5 uid (some name) (some c) ⟨false, false, false, false⟩
              ++ (name ++ c)).flatten
          ++ (encodeHeader md5 uid (some name) (some [])
                ⟨true, false, false, false⟩
            ++ (name ++ ([] ++ ([] : List Nat)))))))).length := by
      have h1 := length_le_flatten_length _ hmapne
      rw [List.length_map] at h1
      have h2 : (encodeHeader md5 uid (some name) (some c)
          ⟨false, false, false, false⟩).length = 62 :=
        encodeHeader_length _ _ _ _ _ hdig
      simp only [List.length_append, h2]
      omega
    rw [receiveReaderGo_chunks md5 inflate dec uid name hdig hu hrefl hname cs _
      c [] [] [] _ hlt hcsall]
    have hflat : c ++ cs.flatten = payload := by
      rw [← List.flatten_cons, ← hsp, split_data_flatten payload n (by omega)]
    rw [hflat]
    obtain ⟨g, hg⟩ : ∃ g, (encodeHeader md5 uid (some name) (some c)
          ⟨false, false, false, false⟩
        ++ (name ++ (c ++ ((cs.map fun c =>
            encodeHeader md5 uid (some name) (some c) ⟨false, false, false, false⟩
              ++ (name ++ c)).flatten
          ++ (encodeHeader md5 uid (some name) (some [])
                ⟨true, false, false, false⟩
            ++ (name ++ ([] ++ ([] : List Nat)))))))).length - cs.length
        = g + 1 := ⟨_, (Nat.succ_pred_eq_of_pos (by omega)).symm⟩
    rw [hg]
    rw [receiveReaderGo_step md5 inflate dec _ _ _ _ _ (hmsgT payload)]
    rw [receiveReaderGo_nil, if_neg hpe]

theorem md5Stub_length : ∀ bs : List Nat, (md5Stub bs).length = 16 := by
  intro bs
  simp [md5Stub]

theorem encodeHeader_none_name (md5 : List Nat → List Nat) (uid : Uid)
    (dt : Option (List Nat)) (flags : ChunkFlags) :
    encodeHeader md5 uid none dt flags = encodeHeader md5 uid (some []) dt flags :=
  rfl

/-- A stream shorter than one header ends the reader loop at once: the
state — the reassembly buffer, the acknowledgement futures, everything —
is returned untouched. -/
theorem receiveReader_short (md5 inflate dec : List Nat → List Nat)
    (st : ChanState) (stream : List Nat)
    (h : stream.length < HEADER_SIZE + 16) :
    receiveReader md5 inflate dec st stream = .ok st := by
  have hmsg : receiveSingleMessage md5 inflate dec st stream
      = .error .incompleteRead := by
    rw [receiveSingleMessage, if_pos h]
  rw [receiveReader]
  simp only [receiveReaderGo, hmsg]

/-- Processing an acknowledgement frame (`eom|recv_ack`, no channel
name, no payload) resolves the pending acknowledgement future of its
uid. -/
theorem processParsedFrame_ackFrame (md5 inflate dec : List Nat → List Nat)
    (st : ChanState) (uid : Uid) (rest : List Nat)
    (hpend : lookupUid st.acks uid = some false) :
    processParsedFrame md5 inflate dec st uid ⟨true, false, true, false⟩
        0 0 [] [] rest
      = .ok ({ st with acks := setUid st.acks uid true }, rest) := by
  simp only [processParsedFrame, ne_eq, not_true_eq_false,
    if_neg (by simp : ¬(0 ≠ 0)), Bool.false_eq_true, if_false,
    if_neg (fun hcon : _ ∧ (0 : Nat) ≠ 0 => hcon.2 rfl), if_true, hpend]
  simp [hpend]

/-- The full acknowledgement-frame step over the wire bytes produced by
`Channel._send_ack`. -/
theorem receiveSingleMessage_ack (md5 inflate dec : List Nat → List Nat)
    (st : ChanState) (uid : Uid) (rest : List Nat)
    (hdig : ∀ bs, (md5 bs).length = 16) (hu : uid.inRange)
    (hpend : lookupUid st.acks uid = some false) :
    receiveSingleMessage md5 inflate dec st (sendAckHeader md5 uid ++ rest)
      = .ok ({ st with acks := setUid st.acks uid true }, rest) := by
  have hsh : sendAckHeader md5 uid ++ rest
      = encodeHeader md5 uid (some []) (some []) ⟨true, false, true, false⟩
        ++ ([] ++ ([] ++ rest)) := by
    rw [sendAckHeader, encodeHeader_none_name, encodeHeader_none_data]
    simp
  rw [hsh]
  rw [receiveSingleMessage_frame md5 inflate dec st uid _ [] [] rest hdig hu
    (by norm_num) (by norm_num)]
  rw [show ([] : List Nat).length = 0 from rfl]
  exact processParsedFrame_ackFrame md5 inflate dec st uid rest hpend

/-! ## Claim theorems -/

/-- C2 counterexample: the claim's layout (uid 24 bytes, flags 2 bytes,
name length 2 bytes, payload length 4 bytes, digest 16 bytes) would make
the header 48 bytes; the encoder actually emits 62 bytes
(`HEADER_FMT = "!32sQHI"`: 32-byte uid and 8-byte flags). -/
theorem claim_C2_layout_counterexample :
    (encodeHeader md5Stub uid0 none none ⟨false, false, false, false⟩).length
      ≠ 24 + 2 + 2 + 4 + 16 := by
  decide

/-- C2 (amended): `encode_header` packs the uid as a 32-byte big-endian
structure (float64, uint64, uint64, uint64), the flags in 8 bytes, the
channel-name length in 2 bytes and the payload length in 4 bytes,
followed by a 16-byte digest of the preceding 46 header bytes; the
total header size is the fixed 62 bytes, independent of payload. -/
theorem claim_C2_header_layout (md5 : List Nat → List Nat) (uid : Uid)
    (cn dt : Option (List Nat)) (flags : ChunkFlags)
    (hdig : ∀ bs, (md5 bs).length = 16)
    (hn : (cn.getD []).length < 2 ^ 16) (hd : (dt.getD []).length < 2 ^ 32) :
    (encodeHeader md5 uid cn dt flags).length = 62
    ∧ ((encodeHeader md5 uid cn dt flags).take 46).take 32 = encodeUid uid
    ∧ (encodeUid uid).length = 32
    ∧ fromBytesBE ((((encodeHeader md5 uid cn dt flags).take 46).drop 32).take 8)
        = flags.encode
    ∧ fromBytesBE ((((encodeHeader md5 uid cn dt flags).take 46).drop 40).take 2)
        = (cn.getD []).length
    ∧ fromBytesBE ((((encodeHeader md5 uid cn dt flags).take 46).drop 42).take 4)
        = (dt.getD []).length
    ∧ (encodeHeader md5 uid cn dt flags).drop 46
        = md5 ((encodeHeader md5 uid cn dt flags).take 46) := by
  have hu32 : (encodeUid uid).length = 32 := encodeUid_length uid
  have hf8 : (toBytesBE 8 flags.encode).length = 8 := toBytesBE_length _ _
  have hn2 : (toBytesBE 2 (cn.getD []).length).length = 2 := toBytesBE_length _ _
  have hd4 : (toBytesBE 4 (dt.getD []).length).length = 4 := toBytesBE_length _ _
  have hB : (encodeUid uid ++ (toBytesBE 8 flags.encode
      ++ (toBytesBE 2 (cn.getD []).length ++ toBytesBE 4 (dt.getD []).length))).length
      = 46 := headerBody_length _ _ _ _ hu32 hf8 hn2 hd4
  have hH : encodeHeader md5 uid cn dt flags
      = (encodeUid uid ++ (toBytesBE 8 flags.encode
        ++ (toBytesBE 2 (cn.getD []).length ++ toBytesBE 4 (dt.getD []).length)))
        ++ md5 (encodeUid uid ++ (toBytesBE 8 flags.encode
          ++ (toBytesBE 2 (cn.getD []).length ++ toBytesBE 4 (dt.getD []).length))) := by
    rw [encodeHeader]
    simp [List.append_assoc]
  have ht46 : (encodeHeader md5 uid cn dt flags).take 46
      = encodeUid uid ++ (toBytesBE 8 flags.encode
        ++ (toBytesBE 2 (cn.getD []).length ++ toBytesBE 4 (dt.getD []).length)) := by
    rw [hH, take_append_of_length hB]
  have hd46 : (encodeHeader md5 uid cn dt flags).drop 46
      = md5 (encodeUid uid ++ (toBytesBE 8 flags.encode
        ++ (toBytesBE 2 (cn.getD []).length ++ toBytesBE 4 (dt.getD []).length))) := by
    rw [hH, drop_append_of_length hB]
  have he : flags.encode < 2 ^ (8 * 8) :=
    lt_of_le_of_lt (chunkFlags_encode_le flags) (by norm_num)
  refine ⟨encodeHeader_length md5 uid cn dt flags hdig, ?_, hu32, ?_, ?_, ?_, ?_⟩
  · rw [ht46, headerBody_take32 _ _ hu32]
  · rw [ht46, headerBody_drop32 _ _ hu32, take_append_of_length hf8,
      fromBytesBE_toBytesBE _ _ he]
  · rw [ht46, headerBody_drop40 _ _ _ hu32 hf8, take_append_of_length hn2,
      fromBytesBE_toBytesBE _ _ (by norm_num at hn ⊢; exact hn)]
  · rw [ht46, headerBody_drop42 _ _ _ _ hu32 hf8 hn2,
      List.take_of_length_le (le_of_eq hd4),
      fromBytesBE_toBytesBE _ _ (by norm_num at hd ⊢; exact hd)]
  · rw [ht46, hd46]

/-- C2 witness: the amended layout evaluated at a concrete header. -/
theorem claim_C2_header_layout_witness :
    (∀ bs, (md5Stub bs).length = 16)
    ∧ ((some name0).getD []).length < 2 ^ 16
    ∧ ((some [7, 8] : Option (List Nat)).getD []).length < 2 ^ 32
    ∧ ((encodeHeader md5Stub uid0 (some name0) (some [7, 8])
          ⟨false, true, false, true⟩).length = 62
      ∧ ((encodeHeader md5Stub uid0 (some name0) (some [7, 8])
            ⟨false, true, false, true⟩).take 46).take 32 = encodeUid uid0
      ∧ (encodeUid uid0).length = 32
      ∧ fromBytesBE ((((encodeHeader md5Stub uid0 (some name0) (some [7, 8])
            ⟨false, true, false, true⟩).take 46).drop 32).take 8)
          = ChunkFlags.encode ⟨false, true, false, true⟩
      ∧ fromBytesBE ((((encodeHeader md5Stub uid0 (some name0) (some [7, 8])
            ⟨false, true, false, true⟩).take 46).drop 40).take 2)
          = ((some name0).getD []).length
      ∧ fromBytesBE ((((encodeHeader md5Stub uid0 (some name0) (some [7, 8])
            ⟨false, true, false, true⟩).take 46).drop 42).take 4)
          = ((some [7, 8] : Option (List Nat)).getD []).length
      ∧ (encodeHeader md5Stub uid0 (some name0) (some [7, 8])
            ⟨false, true, false, true⟩).drop 46
          = md5Stub ((encodeHeader md5Stub uid0 (some name0) (some [7, 8])
              ⟨false, true, false, true⟩).take 46)) :=
  ⟨md5Stub_length, by decide, by decide,
   claim_C2_header_layout md5Stub uid0 (some name0) (some [7, 8])
     ⟨false, true, false, true⟩ md5Stub_length (by decide) (by decide)⟩

/-- C4: the teardown loop of `Execute.execute_io_queues` deletes from
`pending_commands` while iterating over it.  Evaluated at two pending
commands, the first future is cancelled and removed, then the second
`__next__` raises `RuntimeError` (dictionary changed size during
iteration): one entry is left behind and never cancelled, contradicting
the claim that the table ends empty. -/
theorem claim_C4_teardown_dict_mutation :
    executeTeardown ["a", "b"] = (["b"], ["a"], true) := by
  decide

/-- C5 counterexample: after the base `Command` class, registering two
classes that yield the same qualified name raises nothing — the second
silently replaces the first in the global table. -/
theorem claim_C5_duplicate_registration_counterexample :
    (registerCommandClass (registerCommandClass (registerCommandClass
        ⟨none, []⟩ "debellator.core" "Command" 0) "plugins" "Copy" 1)
        "plugins" "Copy" 2).commands = [("plugins:Copy", 2)]
    ∧ (registerCommandClass (registerCommandClass (registerCommandClass
        ⟨none, []⟩ "debellator.core" "Command" 0) "plugins" "Copy" 1)
        "plugins" "Copy" 2).commands ≠ [("plugins:Copy", 1)] := by
  constructor
  · decide
  · decide

/-- C5 (amended): a second registration under an already-registered
qualified name is not rejected: it overwrites the existing table entry
(last registration wins) and leaves the table size unchanged. -/
theorem claim_C5_registration_overwrites (st : CommandRegistry)
    (m c : String) (i j : Nat) (hbase : st.base.isSome = true) :
    lookupKey (registerCommandClass (registerCommandClass st m c i) m c j).commands
        (m ++ ":" ++ c) = some j
    ∧ (registerCommandClass (registerCommandClass st m c i) m c j).commands.length
        = (registerCommandClass st m c i).commands.length := by
  obtain ⟨b, hb⟩ := Option.isSome_iff_exists.mp hbase
  have h1 : registerCommandClass st m c i
      = { st with commands := setKey st.commands (m ++ ":" ++ c) i } := by
    rw [registerCommandClass, hb]
  have h2 : registerCommandClass { st with
        commands := setKey st.commands (m ++ ":" ++ c) i } m c j
      = { st with
          commands := setKey (setKey st.commands (m ++ ":" ++ c) i)
                        (m ++ ":" ++ c) j } := by
    rw [registerCommandClass]
    simp [hb]
  rw [h1, h2]
  refine ⟨lookupKey_setKey _ _ _, ?_⟩
  have h3 := lookupKey_setKey st.commands (m ++ ":" ++ c) i
  rw [lookupKey] at h3
  obtain ⟨p, hp, -⟩ := Option.map_eq_some'.mp h3
  exact setKey_length _ _ _ (by rw [hp]; rfl)

/-- C5 witness: the overwrite behaviour at a concrete registry. -/
theorem claim_C5_registration_overwrites_witness :
    (⟨some 0, []⟩ : CommandRegistry).base.isSome = true
    ∧ (lookupKey (registerCommandClass (registerCommandClass
          (⟨some 0, []⟩ : CommandRegistry) "plugins" "Copy" 1)
          "plugins" "Copy" 2).commands ("plugins" ++ ":" ++ "Copy") = some 2
      ∧ (registerCommandClass (registerCommandClass
          (⟨some 0, []⟩ : CommandRegistry) "plugins" "Copy" 1)
          "plugins" "Copy" 2).commands.length
        = (registerCommandClass (⟨some 0, []⟩ : CommandRegistry)
            "plugins" "Copy" 1).commands.length) :=
  ⟨rfl, claim_C5_registration_overwrites ⟨some 0, []⟩ "plugins" "Copy" 1 2 rfl⟩

/-- C6: `_decode_header` on a full 62-byte header fails (with the
checksum `AssertionError`, the spec's IntegrityError) exactly when the
recomputed digest of the first 46 bytes differs from the trailing 16
bytes; when it matches, the four unpacked fields are returned without
failure. -/
theorem claim_C6_integrity_check (md5 : List Nat → List Nat)
    (header : List Nat) (h62 : header.length = 62) :
    (md5 (header.take 46) ≠ header.drop 46 →
      decodeHeader md5 header
        = .error (.assertionError "Header checksum mismatch!"))
    ∧ (md5 (header.take 46) = header.drop 46 →
      decodeHeader md5 header
        = .ok (⟨fromBytesBE (((header.take 46).take 32).take 8),
                fromBytesBE ((((header.take 46).take 32).drop 8).take 8),
                fromBytesBE ((((header.take 46).take 32).drop 16).take 8),
                fromBytesBE ((((header.take 46).take 32).drop 24).take 8)⟩,
               ChunkFlags.decode (fromBytesBE (((header.take 46).drop 32).take 8)),
               fromBytesBE (((header.take 46).drop 40).take 2),
               fromBytesBE (((header.take 46).drop 42).take 4))) := by
  have hlen : header.length - 16 = 46 := by omega
  have hbody : (header.take 46).length = 46 := by
    rw [List.length_take]
    omega
  constructor
  · intro hmis
    rw [decodeHeader, hlen, if_pos hmis]
  · intro hmatch
    rw [decodeHeader, hlen, if_neg (by simpa using hmatch)]
    rw [if_neg (by rw [hbody, HEADER_SIZE]; simp)]
    have h32 : ((header.take 46).take 32).length = 32 := by
      rw [List.length_take, hbody]
      omega
    rw [decodeUid, if_pos h32]

/-- C6 witness: a well-formed header decodes to its fields; corrupting
is covered by the mismatch implication instantiated vacuously or not at
the same input. -/
theorem claim_C6_integrity_check_witness :
    (encodeHeader md5Stub uid0 (some name0) (some [5])
        ⟨true, false, false, false⟩).length = 62
    ∧ ((md5Stub ((encodeHeader md5Stub uid0 (some name0) (some [5])
          ⟨true, false, false, false⟩).take 46)
        ≠ (encodeHeader md5Stub uid0 (some name0) (some [5])
            ⟨true, false, false, false⟩).drop 46 →
        decodeHeader md5Stub (encodeHeader md5Stub uid0 (some name0) (some [5])
            ⟨true, false, false, false⟩)
          = .error (.assertionError "Header checksum mismatch!"))
      ∧ (md5Stub ((encodeHeader md5Stub uid0 (some name0) (some [5])
            ⟨true, false, false, false⟩).take 46)
          = (encodeHeader md5Stub uid0 (some name0) (some [5])
              ⟨true, false, false, false⟩).drop 46 →
        decodeHeader md5Stub (encodeHeader md5Stub uid0 (some name0) (some [5])
            ⟨true, false, false, false⟩)
          = .ok (⟨fromBytesBE ((((encodeHeader md5Stub uid0 (some name0) (some [5])
                    ⟨true, false, false, false⟩).take 46).take 32).take 8),
                  fromBytesBE (((((encodeHeader md5Stub uid0 (some name0) (some [5])
                    ⟨true, false, false, false⟩).take 46).take 32).drop 8).take 8),
                  fromBytesBE (((((encodeHeader md5Stub uid0 (some name0) (some [5])
                    ⟨true, false, false, false⟩).take 46).take 32).drop 16).take 8),
                  fromBytesBE (((((encodeHeader md5Stub uid0 (some name0) (some [5])
                    ⟨true, false, false, false⟩).take 46).take 32).drop 24).take 8)⟩,
                 ChunkFlags.decode (fromBytesBE ((((encodeHeader md5Stub uid0
                    (some name0) (some [5])
                    ⟨true, false, false, false⟩).take 46).drop 32).take 8)),
                 fromBytesBE ((((encodeHeader md5Stub uid0 (some name0) (some [5])
                    ⟨true, false, false, false⟩).take 46).drop 40).take 2),
                 fromBytesBE ((((encodeHeader md5Stub uid0 (some name0) (some [5])
                    ⟨true, false, false, false⟩).take 46).drop 42).take 4)))) :=
  ⟨by decide,
   claim_C6_integrity_check md5Stub
     (encodeHeader md5Stub uid0 (some name0) (some [5])
       ⟨true, false, false, false⟩) (by decide)⟩

/-- C7 counterexample: a `Uid` whose timestamp bit pattern is NaN is
serialized and deserialized bit-exactly, yet `decode(encode(u)) == u` is
false in Python because `nan != nan` — so the round-trip law fails as
stated for this UID. -/
theorem claim_C7_nan_counterexample :
    decodeUid (encodeUid uidNan) = some uidNan
    ∧ pyUidEq uidNan uidNan = false := by
  constructor
  · decide
  · decide

/-- C7 (amended): for any in-range UID whose timestamp is not NaN,
decoding the encoded bytes yields the identical UID and Python equality
confirms it; the four components are reproduced exactly. -/
theorem claim_C7_uid_roundtrip (u : Uid) (hu : u.inRange)
    (hnn : isNanPattern u.time = false) :
    decodeUid (encodeUid u) = some u ∧ pyUidEq u u = true :=
  ⟨decodeUid_encodeUid u hu, pyUidEq_refl u hnn⟩

/-- C7 witness: the round trip at a concrete UID. -/
theorem claim_C7_uid_roundtrip_witness :
    uid0.inRange ∧ isNanPattern uid0.time = false
    ∧ (decodeUid (encodeUid uid0) = some uid0 ∧ pyUidEq uid0 uid0 = true) :=
  ⟨by decide, by decide, claim_C7_uid_roundtrip uid0 (by decide) (by decide)⟩

/-- C8: for every subset of {eom, send_ack, recv_ack, compression},
decoding the packed integer reproduces exactly that subset. -/
theorem claim_C8_flag_roundtrip (f : ChunkFlags) :
    ChunkFlags.decode f.encode = f :=
  chunkFlags_decode_encode f

/-- C10: `Execute.execute` is overridden to raise `RuntimeError`
unconditionally, returning no state change and dispatching nothing,
while `execute()` on any other command class delegates to `Execute`'s
local path, which does dispatch (it enqueues the invocation envelope on
the outgoing queue). -/
theorem claim_C10_execute_guard (md5 deflate : List Nat → List Nat)
    (compress : Nat) (st : ExecState) (ecn ccn : List Nat) (uid : Uid)
    (envelope : List Nat) (size : Nat) :
    commandExecuteStep md5 deflate compress .executeCls st ecn ccn uid
        envelope size
      = .error (.runtimeError executeDirectMsg)
    ∧ (∀ q, commandExecuteStep md5 deflate compress (.otherCls q) st ecn ccn
        uid envelope size
      = .ok (executeLocalDispatch md5 deflate compress st ecn ccn uid
          envelope size))
    ∧ st.chan.outgoing.length
        < (executeLocalDispatch md5 deflate compress st ecn ccn uid
            envelope size).chan.outgoing.length := by
  refine ⟨rfl, fun q => rfl, ?_⟩
  by_cases hc : compress ≠ 0 <;>
    simp [executeLocalDispatch, channelSend, sendFrames, List.length_append, hc]

/-- C1 counterexample: an empty payload produces zero chunks, and the
channel-name-bearing terminal frame alone does NOT trigger delivery —
the uid has no buffer entry, so the receiver's channel queue stays
empty instead of receiving the (empty) message. -/
theorem claim_C1_empty_payload_counterexample :
    receiveReader md5Stub idBytes idBytes chanState0
        (wireBytes (sendFrames md5Stub idBytes 0 uid0 name0 [] 1 false))
      = .ok ⟨[], [], [], []⟩
    ∧ receiveReader md5Stub idBytes idBytes chanState0
        (wireBytes (sendFrames md5Stub idBytes 0 uid0 name0 [] 1 false))
      ≠ .ok ⟨[], [], [(name0, [idBytes []])], []⟩ := by
  constructor
  · decide
  · decide

/-- C1 (amended): for every nonempty payload and every chunk size
`n >= 1`, splitting into chunks and running the receive loop over the
frames delivers exactly the original payload (decoded by the external
codec) on the named channel; an empty payload yields zero chunks and
the terminal frame does not deliver anything. -/
theorem claim_C1_chunk_roundtrip (md5 inflate dec deflate : List Nat → List Nat)
    (uid : Uid) (name payload : List Nat) (n : Nat)
    (hdig : ∀ bs, (md5 bs).length = 16) (hu : uid.inRange)
    (hnn : isNanPattern uid.time = false) (hn1 : 1 ≤ n)
    (hname : name.length < 2 ^ 16) (hname0 : name ≠ [])
    (hpay : payload.length < 2 ^ 32) :
    receiveReader md5 inflate dec chanState0
        (wireBytes (sendFrames md5 deflate 0 uid name payload n false))
      = .ok ⟨[], [],
          if payload = [] then [] else [(name, [dec payload])], []⟩ :=
  receiveReader_sendFrames md5 inflate dec deflate uid name payload n hdig hu
    hnn hn1 hname hname0 hpay

/-- C1 witness: the round trip at a concrete three-byte payload split
into chunks of two. -/
theorem claim_C1_chunk_roundtrip_witness :
    (∀ bs, (md5Stub bs).length = 16) ∧ uid0.inRange
    ∧ isNanPattern uid0.time = false ∧ 1 ≤ 2
    ∧ name0.length < 2 ^ 16 ∧ name0 ≠ []
    ∧ ([7, 8, 9] : List Nat).length < 2 ^ 32
    ∧ receiveReader md5Stub idBytes idBytes chanState0
        (wireBytes (sendFrames md5Stub idBytes 0 uid0 name0 [7, 8, 9] 2 false))
      = .ok ⟨[], [], if ([7, 8, 9] : List Nat) = [] then []
          else [(name0, [idBytes [7, 8, 9]])], []⟩ :=
  ⟨md5Stub_length, by decide, by decide, by decide, by decide, by decide,
   by decide,
   claim_C1_chunk_roundtrip md5Stub idBytes idBytes idBytes uid0 name0
     [7, 8, 9] 2 md5Stub_length (by decide) (by decide) (by decide) (by decide)
     (by decide) (by decide)⟩

/-- C3 counterexample: the reader loop's teardown (EOF) leaves a
registered pending acknowledgement future exactly as it was — it is
neither resolved nor failed (the code has no `TransportClosed` path at
all), refuting the claim that every acknowledgement future terminates
when the transport tears down. -/
theorem claim_C3_teardown_counterexample :
    receiveReader md5Stub idBytes idBytes ⟨[], [(uid0, false)], [], []⟩ []
      = .ok ⟨[], [(uid0, false)], [], []⟩
    ∧ lookupUid (⟨[], [(uid0, false)], [], []⟩ : ChanState).acks uid0
      = some false := by
  constructor
  · decide
  · decide

/-- C3 (amended): `send` with `ack=true` registers a pending
acknowledgement future keyed by the message uid and suspends on it; the
future resolves when the matching `eom|recv_ack` frame is processed;
but on transport teardown (EOF or cancellation) pending futures are
left unresolved — nothing fails them, and no `TransportClosed` error
exists in the code (they are only weakly held, so abandoned waits are
reclaimed by garbage collection). -/
theorem claim_C3_ack_lifecycle (md5 inflate dec deflate : List Nat → List Nat)
    (compress : Nat) (st : ChanState) (uid : Uid)
    (name payload stream rest : List Nat) (n : Nat)
    (hdig : ∀ bs, (md5 bs).length = 16) (hu : uid.inRange)
    (hnn : isNanPattern uid.time = false)
    (hpend : lookupUid st.acks uid = some false)
    (hstream : stream.length < HEADER_SIZE + 16) :
    lookupUid (channelSend md5 deflate compress st uid name payload n true).acks
        uid = some false
    ∧ receiveSingleMessage md5 inflate dec st (sendAckHeader md5 uid ++ rest)
      = .ok ({ st with acks := setUid st.acks uid true }, rest)
    ∧ receiveReader md5 inflate dec st stream = .ok st := by
  have hrefl := pyUidEq_refl uid hnn
  refine ⟨?_, receiveSingleMessage_ack md5 inflate dec st uid rest hdig hu hpend,
    receiveReader_short md5 inflate dec st stream hstream⟩
  simp [channelSend, lookupUid_setUid _ _ _ hrefl]

/-- C3 witness: the acknowledgement lifecycle at a concrete state with
one pending future. -/
theorem claim_C3_ack_lifecycle_witness :
    (∀ bs, (md5Stub bs).length = 16) ∧ uid0.inRange
    ∧ isNanPattern uid0.time = false
    ∧ lookupUid (⟨[], [(uid0, false)], [], []⟩ : ChanState).acks uid0 = some false
    ∧ ([] : List Nat).length < HEADER_SIZE + 16
    ∧ (lookupUid (channelSend md5Stub idBytes 0 ⟨[], [(uid0, false)], [], []⟩
          uid0 name0 [7] 1 true).acks uid0 = some false
      ∧ receiveSingleMessage md5Stub idBytes idBytes ⟨[], [(uid0, false)], [], []⟩
          (sendAckHeader md5Stub uid0 ++ [])
        = .ok ({ (⟨[], [(uid0, false)], [], []⟩ : ChanState) with
                 acks := setUid (⟨[], [(uid0, false)], [], []⟩ : ChanState).acks
                           uid0 true }, [])
      ∧ receiveReader md5Stub idBytes idBytes ⟨[], [(uid0, false)], [], []⟩ []
        = .ok ⟨[], [(uid0, false)], [], []⟩) :=
  ⟨md5Stub_length, by decide, by decide, by decide, by decide,
   claim_C3_ack_lifecycle md5Stub idBytes idBytes idBytes 0
     ⟨[], [(uid0, false)], [], []⟩ uid0 name0 [7] [] [] 1 md5Stub_length
     (by decide) (by decide) (by decide) (by decide)⟩

/-- C9: whenever the reader processes a frame whose `send_ack` flag is
set, the resulting state's outgoing queue is the old queue plus exactly
one acknowledgement frame, which decodes to the same uid, flags
`eom|recv_ack` (and neither `send_ack` nor `compression`), no channel
name and no payload; the rest of the stream is untouched.  The side
hypothesis rules out the pathological double-resolution
(`InvalidStateError`) path of an already-resolved acknowledgement. -/
theorem claim_C9_auto_ack (md5 inflate dec : List Nat → List Nat)
    (st : ChanState) (uid : Uid) (flags : ChunkFlags)
    (name data rest : List Nat)
    (hdig : ∀ bs, (md5 bs).length = 16) (hu : uid.inRange)
    (hname : name.length < 2 ^ 16) (hdata : data.length < 2 ^ 32)
    (hsend : flags.send_ack = true)
    (hnodup : ¬(flags.recv_ack = true ∧ lookupUid st.acks uid = some true)) :
    (receiveSingleMessage md5 inflate dec st
        (encodeHeader md5 uid (some name) (some data) flags
          ++ (name ++ (data ++ rest)))).map (fun p => p.fst.outgoing)
      = .ok (st.outgoing ++ [[sendAckHeader md5 uid]])
    ∧ (receiveSingleMessage md5 inflate dec st
        (encodeHeader md5 uid (some name) (some data) flags
          ++ (name ++ (data ++ rest)))).map (fun p => p.snd)
      = .ok rest
    ∧ decodeHeader md5 (sendAckHeader md5 uid)
        = .ok (uid, ⟨true, false, true, false⟩, 0, 0) := by
  obtain ⟨eomb, sab, rcb, cmb⟩ := flags
  have hsab : sab = true := hsend
  subst hsab
  rw [receiveSingleMessage_frame md5 inflate dec st uid _ name data rest
    hdig hu hname hdata]
  refine ⟨?_, ?_, ?_⟩
  · rw [processParsedFrame]
    split_ifs with h1 h2 h3 h4 <;>
      cases rcb <;>
      rcases hval : lookupUid st.acks uid with _ | b <;>
      try cases b
    all_goals try simp [hval]
    all_goals try rfl
    all_goals exact (hnodup ⟨rfl, hval⟩).elim
  · rw [processParsedFrame]
    split_ifs with h1 h2 h3 h4 <;>
      cases rcb <;>
      rcases hval : lookupUid st.acks uid with _ | b <;>
      try cases b
    all_goals try simp [hval]
    all_goals try rfl
    all_goals exact (hnodup ⟨rfl, hval⟩).elim
  · rw [sendAckHeader, decodeHeader_encodeHeader md5 uid none none _ hdig hu
      (by norm_num) (by norm_num)]
    rfl

/-- C9 witness: the automatic acknowledgement at a concrete terminal
frame with `send_ack` set. -/
theorem claim_C9_auto_ack_witness :
    (∀ bs, (md5Stub bs).length = 16) ∧ uid0.inRange
    ∧ name0.length < 2 ^ 16 ∧ ([7] : List Nat).length < 2 ^ 32
    ∧ (⟨true, true, false, false⟩ : ChunkFlags).send_ack = true
    ∧ ¬((⟨true, true, false, false⟩ : ChunkFlags).recv_ack = true
        ∧ lookupUid chanState0.acks uid0 = some true)
    ∧ ((receiveSingleMessage md5Stub idBytes idBytes chanState0
          (encodeHeader md5Stub uid0 (some name0) (some [7])
              ⟨true, true, false, false⟩
            ++ (name0 ++ ([7] ++ ([] : List Nat))))).map (fun p => p.fst.outgoing)
        = .ok (chanState0.outgoing ++ [[sendAckHeader md5Stub uid0]])
      ∧ (receiveSingleMessage md5Stub idBytes idBytes chanState0
          (encodeHeader md5Stub uid0 (some name0) (some [7])
              ⟨true, true, false, false⟩
            ++ (name0 ++ ([7] ++ ([] : List Nat))))).map (fun p => p.snd)
        = .ok ([] : List Nat)
      ∧ decodeHeader md5Stub (sendAckHeader md5Stub uid0)
        = .ok (uid0, ⟨true, false, true, false⟩, 0, 0)) :=
  ⟨md5Stub_length, by decide, by decide, by decide, by decide, by decide,
   claim_C9_auto_ack md5Stub idBytes idBytes chanState0 uid0
     ⟨true, true, false, false⟩ name0 [7] [] md5Stub_length (by decide)
     (by decide) (by decide) (by decide) (by decide)⟩

end Debellator
